import Mathlib

/-!
# BrainID EEG firmware: acquisition-and-broadcast loop

A shallow embedding of `src/eeg/src/main.cpp` (`readAllChannels`,
`sendDataToClients`, `loop`) together with the properties of the
specification that concern sanitization, framing, distribution and timing.

Conventions of the embedding:

* a C `float` is an IEEE-754 binary32 bit pattern (`F32`); only classification
  (`isnan`, `isinf`) and ordered comparison are used by the code, and both are
  modelled exactly;
* `unsigned long` is a 32-bit counter: `millis()` is the true uptime in
  milliseconds reduced modulo `2^32`, subtraction wraps;
* the WebSocket server is the list of its clients with their status; sends,
  closes, built documents and serial lines are recorded in logs kept in the
  state;
* the JSON document is an ordered tree; objects keep insertion order.
-/

namespace BrainID

/-! ## IEEE-754 binary32 values -/

/-- A C `float`: sign bit, 8-bit biased exponent, 23-bit fraction. -/
structure F32 where
  sign : Bool
  expo : Nat
  frac : Nat
  expo_lt : expo < 256
  frac_lt : frac < 8388608
deriving DecidableEq

namespace F32

/-- C `isnan`: exponent all ones and a non-zero fraction. -/
def isnan (x : F32) : Bool := x.expo == 255 && x.frac != 0

/-- C `isinf`: exponent all ones and a zero fraction (either sign). -/
def isinf (x : F32) : Bool := x.expo == 255 && x.frac == 0

/-- Neither NaN nor an infinity. -/
def isFinite (x : F32) : Bool := x.expo != 255

/-- Magnitude of the order key: the significand (with the hidden bit for a
normal number) shifted by the exponent. For a finite `x` this is `|x| * 2^149`. -/
def mag (x : F32) : Nat :=
  (if x.expo = 0 then x.frac else 8388608 + x.frac) * 2 ^ (max x.expo 1 - 1)

/-- Order key: for a finite `x` it is the exact integer `x * 2^149`; for the
infinities it is `±2^277`, beyond every finite key, so comparing keys orders
all values that are not NaN as IEEE-754 does. -/
def key (x : F32) : Int := if x.sign then -(x.mag : Int) else (x.mag : Int)

/-- The real (rational) number denoted by a finite `x`. -/
def toRat (x : F32) : ℚ := (x.key : ℚ) / 2 ^ 149

/-- C `a > b` on floats: false as soon as one operand is NaN. -/
def gt (a b : F32) : Bool := !a.isnan && !b.isnan && decide (b.key < a.key)

/-- C `a < b` on floats: false as soon as one operand is NaN. -/
def lt (a b : F32) : Bool := !a.isnan && !b.isnan && decide (a.key < b.key)

/-- The literal `0.0` converted to `float`. -/
def zero : F32 := ⟨false, 0, 0, by decide, by decide⟩

/-- The literal `1000000` converted to `float` (bits `0x49742400`, exact). -/
def million : F32 := ⟨false, 146, 7611392, by decide, by decide⟩

/-- The value `-1000000` converted to `float` (bits `0xC9742400`, exact). -/
def negMillion : F32 := ⟨true, 146, 7611392, by decide, by decide⟩

/-- A quiet NaN (bits `0x7FC00000`). -/
def qnan : F32 := ⟨false, 255, 4194304, by decide, by decide⟩

/-- Positive infinity (bits `0x7F800000`). -/
def posInf : F32 := ⟨false, 255, 0, by decide, by decide⟩

/-- Negative infinity (bits `0xFF800000`). -/
def negInf : F32 := ⟨true, 255, 0, by decide, by decide⟩

/-- The float nearest to `5.2` (bits `0x40A66666`). -/
def f5_2 : F32 := ⟨false, 129, 2516582, by decide, by decide⟩

/-- The float nearest to `-0.0000003` (bits `0xB4A10FB0`). -/
def fNeg3em7 : F32 := ⟨true, 105, 2166704, by decide, by decide⟩

/-- The float `1e9` (bits `0x4E6E6B28`, exact). -/
def f1e9 : F32 := ⟨false, 156, 7236392, by decide, by decide⟩

end F32

/-! ## `readAllChannels` -/

/-- The channel buffer `float channelData[8]`. -/
abbrev ChannelBuf := Fin 8 → F32

/-- Body of the validation loop of `readAllChannels` for one element:
NaN or infinite becomes `0.0`, then the two clamps are applied in order. -/
def validateStep (x : F32) : F32 :=
  let x1 := if x.isnan || x.isinf then F32.zero else x
  let x2 := if F32.gt x1 F32.million then F32.million else x1
  let x3 := if F32.lt x2 F32.negMillion then F32.negMillion else x2
  x3

/-- The loop `for (int i = 0; i < 8; i++)` of `readAllChannels`: element `i` of
the buffer is rewritten in place, in ascending index order. -/
def validateLoop (buf : ChannelBuf) : ChannelBuf :=
  (List.finRange 8).foldl (fun b i => Function.update b i (validateStep (b i))) buf

/-- The whole of `readAllChannels` on the buffer: the eight assignments store the
converted readings `conv` (what `computeVolts(readADC_SingleEnded(k)) * 1000000`
evaluated to, as floats), then the validation loop runs. -/
def readBuffer (conv : ChannelBuf) : ChannelBuf := validateLoop conv

/-! ## JSON documents -/

/-- An ordered JSON tree as built through the ArduinoJson calls of the
program: objects keep their members in insertion order. -/
inductive Json where
  | uint (n : Nat)
  | int (n : Int)
  | float (x : F32)
  | arr (items : List Json)
  | obj (members : List (String × Json))

namespace Json

/-- The assignment `object[key] = v`: replaces the value of an existing
member, otherwise appends a new member at the end. -/
def setMember : List (String × Json) → String → Json → List (String × Json)
  | [], k, v => [(k, v)]
  | (k0, v0) :: rest, k, v =>
    if k0 = k then (k0, v) :: rest else (k0, v0) :: setMember rest k v

/-- Member lookup by name. -/
def get? : Json → String → Option Json
  | obj ms, k => (ms.find? (fun kv => kv.1 == k)).map Prod.snd
  | _, _ => none

/-- Elements of an array. -/
def items? : Json → Option (List Json)
  | arr xs => some xs
  | _ => none

end Json

/-- One pass of the body of the framing loop of `sendDataToClients` for index
`i`: `createNestedObject()` followed by the four member assignments. -/
def channelEntry (buf : ChannelBuf) (i : Fin 8) : Json :=
  let channel : List (String × Json) := []
  let channel := Json.setMember channel "id" (Json.int (i.val : Int))
  let channel := Json.setMember channel "value" (Json.float (buf i))
  let channel := Json.setMember channel "ads" (Json.int (if i.val < 4 then 1 else 2))
  let channel := Json.setMember channel "pin" (Json.int ((i.val : Int) % 4))
  Json.obj channel

/-- The document built by `sendDataToClients`: `doc["timestamp"] = millis()`,
`createNestedArray("channels")`, then one entry appended per index `0..7`.
This is the document when the pool of `DynamicJsonDocument doc(512)` holds
all of it; `buildDocPool` below builds it slot by slot inside the pool. -/
def buildDoc (timestamp : Nat) (buf : ChannelBuf) : Json :=
  let doc : List (String × Json) := []
  let doc := Json.setMember doc "timestamp" (Json.uint timestamp)
  let channels := (List.finRange 8).foldl (fun acc i => acc ++ [channelEntry buf i]) []
  let doc := Json.setMember doc "channels" (Json.arr channels)
  Json.obj doc

/-! ### The document inside its pool

`DynamicJsonDocument doc(512)` gives the document a pool of 512 bytes. Every
member added to an object and every element added to an array takes one slot
of the pool; the size of a slot is a constant of the JSON library and is a
parameter here (`slotBytes`; `0` describes a document that never runs out).
When no slot is left the addition is dropped, and assignments through the
unbound object returned by a failed `createNestedObject()` do nothing. The
member names are string literals, which are stored by pointer and take no
pool space. -/

/-- The capacity passed to `DynamicJsonDocument doc(512)`, in bytes. -/
def docCapacity : Nat := 512

/-- Taking one slot when `used` bytes of the pool are in use: the new number
of bytes in use, or `none` when the slot does not fit. -/
def poolAlloc (slotBytes used : Nat) : Option Nat :=
  if used + slotBytes ≤ docCapacity then some (used + slotBytes) else none

/-- The assignment `object[key] = v` inside the pool (first component: bytes in
use): an existing member is overwritten in place, a new member takes a slot
and is dropped when none is left. -/
def setMemberPool (slotBytes : Nat) (st : Nat × List (String × Json)) (k : String)
    (v : Json) : Nat × List (String × Json) :=
  if st.2.any (fun kv => kv.1 == k) then (st.1, Json.setMember st.2 k v)
  else
    match poolAlloc slotBytes st.1 with
    | some used => (used, Json.setMember st.2 k v)
    | none => st

/-- One pass of the framing loop inside the pool: `createNestedObject()` takes
a slot for the array element (no entry at all when that fails), then the
four member assignments each take one. -/
def channelEntryPool (slotBytes : Nat) (buf : ChannelBuf) (used : Nat) (i : Fin 8) :
    Nat × Option Json :=
  match poolAlloc slotBytes used with
  | none => (used, none)
  | some used =>
    let channel : Nat × List (String × Json) := (used, [])
    let channel := setMemberPool slotBytes channel "id" (Json.int (i.val : Int))
    let channel := setMemberPool slotBytes channel "value" (Json.float (buf i))
    let channel := setMemberPool slotBytes channel "ads" (Json.int (if i.val < 4 then 1 else 2))
    let channel := setMemberPool slotBytes channel "pin" (Json.int ((i.val : Int) % 4))
    (channel.1, some (Json.obj channel.2))

/-- The framing loop inside the pool: bytes in use and entries appended so far. -/
def channelsPool (slotBytes : Nat) (buf : ChannelBuf) (l : List (Fin 8))
    (start : Nat × List Json) : Nat × List Json :=
  l.foldl (fun acc i =>
    match channelEntryPool slotBytes buf acc.1 i with
    | (used, some e) => (used, acc.2 ++ [e])
    | (used, none) => (used, acc.2)) start

/-- The document built by `sendDataToClients` inside its pool of 512 bytes:
one slot for `timestamp`, one for `channels` (without it the array is
unbound and nothing more is added), then the framing loop. -/
def buildDocPool (slotBytes : Nat) (timestamp : Nat) (buf : ChannelBuf) : Json :=
  let doc : Nat × List (String × Json) := (0, [])
  let doc := setMemberPool slotBytes doc "timestamp" (Json.uint timestamp)
  match poolAlloc slotBytes doc.1 with
  | none => Json.obj doc.2
  | some used =>
    let channels := channelsPool slotBytes buf (List.finRange 8) (used, [])
    Json.obj (Json.setMember doc.2 "channels" (Json.arr channels.2))

/-! ## WebSocket server -/

/-- Status of a WebSocket client. -/
inductive WsStatus where
  | connected
  | disconnecting
  | disconnected
deriving DecidableEq

/-- A client of the server `ws`. -/
structure WsClient where
  id : Nat
  status : WsStatus
deriving DecidableEq

/-- A live observer: a client whose status is connected. -/
def WsClient.isLive (c : WsClient) : Bool := decide (c.status = WsStatus.connected)

/-- Closing a client: a connected client starts disconnecting; others are left alone. -/
def WsClient.close (c : WsClient) : WsClient :=
  if c.isLive then { c with status := WsStatus.disconnecting } else c

/-- The live observers among the clients, in list order. -/
def liveClients (cs : List WsClient) : List WsClient := cs.filter WsClient.isLive

/-- The call `ws.count()`: number of connected clients. -/
def wsCount (cs : List WsClient) : Nat := cs.countP WsClient.isLive

/-- Lines written to the serial port by the broadcast step. -/
inductive SerialEvent where
  | tooMany
  | debugInfo (doc : Json) (jsonString : String)

/-- Parameters that belong to the libraries the program links against. -/
structure Lib where
  serializeJson : Json → String
  maxWsClients : Nat

/-! ## Program state -/

/-- The 32-bit range of `unsigned long`. -/
def UL : Nat := 4294967296

/-- The call `millis()` when the true uptime is `t` milliseconds. -/
def millis (t : Nat) : Nat := t % UL

/-- Subtraction `a - b` of two `unsigned long` values (both below `2^32`),
wrapping modulo `2^32`. -/
def ulSub (a b : Nat) : Nat := (a + (UL - b)) % UL

/-- The constant `sampleInterval`. -/
def sampleInterval : Nat := 50

/-- The configuration constant `WS_MAX_CLIENTS` of `eeg_config.h`. -/
def WS_MAX_CLIENTS : Nat := 4

/-- Globals of `main.cpp`, the static `lastDebugPrint`, the client list of the
server, and logs of the effects performed so far: `sent` holds one pair
(client id, payload) per message handed to a client, `closed` the ids of the
clients closed, `built` the documents built, `serial` the serial output, and
`samples` counts the calls of `readAllChannels`. -/
structure Sys where
  channelData : ChannelBuf
  lastSampleTime : Nat
  lastDebugPrint : Nat
  ws : List WsClient
  sent : List (Nat × String)
  closed : List Nat
  built : List Json
  serial : List SerialEvent
  samples : Nat

/-- The call `ws.closeAll()`: every connected client is closed. -/
def closeAll (s : Sys) : Sys :=
  { s with
    ws := s.ws.map WsClient.close
    closed := s.closed ++ (liveClients s.ws).map WsClient.id }

/-- The call `ws.textAll(jsonString)`: the payload is sent to every connected client. -/
def textAll (jsonString : String) (s : Sys) : Sys :=
  { s with sent := s.sent ++ (liveClients s.ws).map (fun c => (c.id, jsonString)) }

/-- The call `ws.cleanupClients()`: when more clients are connected than the
library allows, the client at the front of the list is closed. -/
def cleanupClients (L : Lib) (s : Sys) : Sys :=
  if wsCount s.ws > L.maxWsClients then
    match s.ws with
    | [] => s
    | c :: rest =>
      { s with
        ws := c.close :: rest
        closed := s.closed ++ (if c.isLive then [c.id] else []) }
  else s

/-- The function `readAllChannels`, with the converted readings as input. -/
def readAllChannels (conv : ChannelBuf) (s : Sys) : Sys :=
  { s with channelData := readBuffer conv, samples := s.samples + 1 }

/-- The function `sendDataToClients`. The three clock arguments are the true
uptimes at its three `millis()` calls: when the timestamp is stored, when the
debug condition is tested, and when `lastDebugPrint` is updated. -/
def sendDataToClients (L : Lib) (tBuild tDbg tSet : Nat) (s : Sys) : Sys :=
  if wsCount s.ws > 0 then
    if wsCount s.ws > 3 then
      closeAll { s with serial := s.serial ++ [SerialEvent.tooMany] }
    else
      let doc := buildDoc (millis tBuild) s.channelData
      let jsonString := L.serializeJson doc
      let s1 := { s with built := s.built ++ [doc] }
      let s2 :=
        if ulSub (millis tDbg) s1.lastDebugPrint > 5000 then
          { s1 with
            serial := s1.serial ++ [SerialEvent.debugInfo doc jsonString]
            lastDebugPrint := millis tSet }
        else s1
      textAll jsonString s2
  else s

/-- What one iteration of `loop` reads from its environment. -/
structure TickInput where
  now : Nat
  conv : ChannelBuf
  tBuild : Nat
  tDbg : Nat
  tSet : Nat
  clients : List WsClient

/-- The function `loop` (one iteration; the trailing `delay(1)` only lets time pass). -/
def loop (L : Lib) (inp : TickInput) (s : Sys) : Sys :=
  let currentTime := millis inp.now
  if ulSub currentTime s.lastSampleTime ≥ sampleInterval then
    let s := { s with lastSampleTime := currentTime }
    let s := readAllChannels inp.conv s
    let s := sendDataToClients L inp.tBuild inp.tDbg inp.tSet s
    cleanupClients L s
  else s

/-- One scheduling step: connection events handled since the previous
iteration have left the client list `inp.clients`, then `loop` runs once. -/
def iteration (L : Lib) (inp : TickInput) (s : Sys) : Sys :=
  loop L inp { s with ws := inp.clients }

/-- A run of the tick loop over successive iterations. -/
def run (L : Lib) : List TickInput → Sys → Sys
  | [], s => s
  | inp :: rest, s => run L rest (iteration L inp s)

/-- State after `setup`: zero-initialised globals and empty logs. -/
def initSys : Sys :=
  { channelData := fun _ => F32.zero
    lastSampleTime := 0
    lastDebugPrint := 0
    ws := []
    sent := []
    closed := []
    built := []
    serial := []
    samples := 0 }

/-- The `timestamp` member of a built frame. -/
def frameTimestamp (doc : Json) : Option Nat :=
  match doc.get? "timestamp" with
  | some (Json.uint n) => some n
  | _ => none

/-- Clock readings of an iteration, in program order. -/
def TickInput.readings (inp : TickInput) : List Nat := [inp.now, inp.tBuild, inp.tDbg, inp.tSet]

/-- The sanitization policy in the words of the specification, on the real
value of the reading: non-finite becomes `0`, above `1000000` becomes
`1000000`, below `-1000000` becomes `-1000000`, anything else is kept. -/
def sanitizeSpec (r : F32) : F32 :=
  if r.isnan || r.isinf then F32.zero
  else if (1000000 : ℚ) < r.toRat then F32.million
  else if r.toRat < (-1000000 : ℚ) then F32.negMillion
  else r

/-- Timestamps of the frames built so far, in the order they were broadcast. -/
def frameTimestamps (s : Sys) : List Nat := s.built.filterMap frameTimestamp

/-- Clock readings of a run, in program order. -/
def clockReadings (inps : List TickInput) : List Nat := inps.flatMap TickInput.readings

/-! ## Concrete inputs used in examples -/

/-- A library instance for examples: a constant serializer and the ESP32
default of 8 clients. -/
def exampleLib : Lib := ⟨fun _ => "frame", 8⟩

/-- The clients with ids `1..n`, all connected. -/
def connectedClients (n : Nat) : List WsClient :=
  (List.range n).map (fun i => ⟨i + 1, WsStatus.connected⟩)

/-- The state after `setup` with the given client list. -/
def sysWith (cs : List WsClient) : Sys := { initSys with ws := cs }

/-- An iteration at uptime `t` (all clock reads at `t`), reading zeros, with
one connected client. -/
def tickAt (t : Nat) : TickInput :=
  { now := t, conv := fun _ => F32.zero, tBuild := t, tDbg := t, tSet := t
    clients := connectedClients 1 }

/-- A run of two iterations 50 ms apart, across the wrap of the 32-bit counter. -/
def wrapRun : List TickInput := [tickAt 4294967290, tickAt 4294967340]

/-! ## The I2C scanner (`i2c_scanner.cpp`) -/

/-- One call on the serial port: `Serial.print(s)` or `Serial.println(s)`. -/
inductive SerialCall where
  | print (s : String)
  | println (s : String)
deriving DecidableEq

/-- An I2C bus as the scanner sees it: the byte `Wire.endTransmission()` returns
after `Wire.beginTransmission(address)` (`0` is an acknowledge, `4` "other error"). -/
abbrev I2CBus := Nat → Nat

/-- The call `Serial.print(address, HEX)`: upper-case hexadecimal digits, no padding. -/
def printHex (n : Nat) : String := String.mk ((Nat.toDigits 16 n).map Char.toUpper)

/-- The locals of the scanner's `loop` that survive an address, with the
serial output so far. -/
structure ScanState where
  nDevices : Nat
  out : List SerialCall

/-- The `switch(address)` that names the known devices. -/
def knownDevice (address : Nat) : String :=
  if address = 0x48 then " (ADS1115 #1 - ADDR to GND)"
  else if address = 0x49 then " (ADS1115 #2 - ADDR to VCC)"
  else " (Unknown device)"

/-- Body of the `for` loop of the scanner for one address. -/
def scanAddress (bus : I2CBus) (st : ScanState) (address : Nat) : ScanState :=
  let error := bus address
  if error = 0 then
    let out := st.out ++ [SerialCall.print "I2C device found at address 0x"]
    let out := if address < 16 then out ++ [SerialCall.print "0"] else out
    let out := out ++ [SerialCall.print (printHex address)]
    let out := out ++ [SerialCall.print (knownDevice address)]
    let out := out ++ [SerialCall.println ""]
    { nDevices := st.nDevices + 1, out := out }
  else if error = 4 then
    let out := st.out ++ [SerialCall.print "Unknown error at address 0x"]
    let out := if address < 16 then out ++ [SerialCall.print "0"] else out
    let out := out ++ [SerialCall.println (printHex address)]
    { st with out := out }
  else st

/-- The addresses probed by `for(address = 1; address < 127; address++)`. -/
def probedAddresses : List Nat := List.range' 1 126

/-- The line that announces both modules. -/
def bothDetectedLine : SerialCall := SerialCall.println "✓ Both ADS1115 modules detected!"

/-- The report printed after the `for` loop of the scanner. -/
def scanVerdict (nDevices : Nat) : List SerialCall :=
  if nDevices = 0 then
    [SerialCall.println "No I2C devices found",
     SerialCall.println "Check connections:",
     SerialCall.println "  - SDA to GPIO 21",
     SerialCall.println "  - SCL to GPIO 22",
     SerialCall.println "  - VCC to external power",
     SerialCall.println "  - GND to common ground"]
  else
    [SerialCall.print "Found ", SerialCall.print (toString nDevices),
     SerialCall.println " device(s)"] ++
    (if nDevices = 2 then [bothDetectedLine]
     else if nDevices = 1 then
       [SerialCall.println "⚠ Only one ADS1115 detected. Check second module."]
     else [])

/-- The function `loop` of `i2c_scanner.cpp`: one scan of the bus (the closing
`delay(5000)` only lets time pass). -/
def I2CScanner.loop (bus : I2CBus) : ScanState :=
  let st : ScanState := { nDevices := 0, out := [SerialCall.println "Scanning..."] }
  let st := probedAddresses.foldl (scanAddress bus) st
  let out := st.out ++ scanVerdict st.nDevices
  { st with out := out ++ [SerialCall.println ""] }

/-- The expected device addresses announced by `setup` of `i2c_scanner.cpp`. -/
def I2CScanner.setup : List SerialCall :=
  [SerialCall.println "\nI2C Scanner for ESP32 EEG System",
   SerialCall.println "================================",
   SerialCall.println "Scanning I2C bus...",
   SerialCall.println "Expected devices:",
   SerialCall.println "  - ADS1115 #1 at 0x48 (ADDR pin to GND)",
   SerialCall.println "  - ADS1115 #2 at 0x49 (ADDR pin to VCC)",
   SerialCall.println ""]

/-- The scan announced both ADS1115 modules. -/
def reportsBoth (st : ScanState) : Bool := decide (bothDetectedLine ∈ st.out)

/-- Number of probed addresses that acknowledge on the bus. -/
def ackCount (bus : I2CBus) : Nat := probedAddresses.countP (fun a => decide (bus a = 0))

/-- A bus on which exactly the listed addresses acknowledge; every other
address answers `2` (address not acknowledged). -/
def busWith (devices : List Nat) : I2CBus := fun a => if a ∈ devices then 0 else 2

/-! ## Lemmas on floats and on the validation loop -/

/-- The order key decodes a normal number as IEEE-754 prescribes:
`(-1)^sign * (1 + frac / 2^23) * 2^(expo - 127)`. -/
theorem F32.toRat_normal (x : F32) (h0 : 0 < x.expo) :
    x.toRat = (if x.sign then -1 else 1) * (1 + (x.frac : ℚ) / 2 ^ 23)
      * 2 ^ ((x.expo : ℤ) - 127) := by
  obtain ⟨e, he⟩ : ∃ e, x.expo = e + 1 := ⟨x.expo - 1, by omega⟩
  have hz : (2 : ℚ) ^ ((e : ℤ) + 1 - 127) = 2 ^ e / 2 ^ 126 := by
    rw [show ((e : ℤ) + 1 - 127) = (e : ℤ) - (126 : ℕ) by push_cast; ring,
      zpow_sub₀ (two_ne_zero), zpow_natCast, zpow_natCast]
  simp only [F32.toRat, F32.key, F32.mag, he, Nat.succ_ne_zero, if_false, Nat.cast_add,
    Nat.cast_one, hz]
  have hm : max (e + 1) 1 - 1 = e := by omega
  rw [hm]
  cases x.sign <;> simp <;> field_simp <;> ring

/-- The order key decodes a subnormal number (and the zeros) as IEEE-754
prescribes: `(-1)^sign * (frac / 2^23) * 2^(-126)`. -/
theorem F32.toRat_subnormal (x : F32) (h0 : x.expo = 0) :
    x.toRat = (if x.sign then -1 else 1) * ((x.frac : ℚ) / 2 ^ 23) * 2 ^ (-126 : ℤ) := by
  have hz : (2 : ℚ) ^ (-126 : ℤ) = 1 / 2 ^ 126 := by
    rw [zpow_neg, one_div]; norm_cast
  have h149 : (2 : ℚ) ^ 149 = 2 ^ 23 * 2 ^ 126 := by rw [← pow_add]
  simp only [F32.toRat, F32.key, F32.mag, h0, if_true, hz, h149]
  cases x.sign
  · simp only [Bool.false_eq_true, if_false, Int.cast_natCast, Nat.cast_mul, Nat.cast_pow,
      Nat.cast_ofNat]
    field_simp
  · simp only [if_true, Int.cast_neg, Int.cast_natCast, Nat.cast_mul, Nat.cast_pow,
      Nat.cast_ofNat]
    field_simp

theorem F32.toRat_f1e9 : F32.f1e9.toRat = 1000000000 := by
  norm_num [F32.toRat, F32.key, F32.mag, F32.f1e9]

theorem F32.toRat_f5_2 : F32.f5_2.toRat = 5.19999980926513671875 := by
  norm_num [F32.toRat, F32.key, F32.mag, F32.f5_2]

theorem F32.key_million : F32.million.key = 1000000 * 2 ^ 149 := by
  norm_num [F32.key, F32.mag, F32.million]

theorem F32.key_negMillion : F32.negMillion.key = -(1000000 * 2 ^ 149) := by
  norm_num [F32.key, F32.mag, F32.negMillion]

theorem F32.toRat_zero : F32.zero.toRat = 0 := by
  simp [F32.toRat, F32.key, F32.mag, F32.zero]

theorem F32.toRat_million : F32.million.toRat = 1000000 := by
  rw [F32.toRat, F32.key_million]; push_cast; field_simp; norm_num

theorem F32.toRat_negMillion : F32.negMillion.toRat = -1000000 := by
  rw [F32.toRat, F32.key_negMillion]; push_cast; field_simp; norm_num

theorem F32.toRat_gt_million_iff (x : F32) :
    (1000000 : ℚ) < x.toRat ↔ F32.million.key < x.key := by
  rw [F32.key_million, F32.toRat, lt_div_iff₀ (by positivity)]
  exact_mod_cast Iff.rfl

theorem F32.toRat_lt_negMillion_iff (x : F32) :
    x.toRat < (-1000000 : ℚ) ↔ x.key < F32.negMillion.key := by
  have hc : (-1000000 * 2 ^ 149 : ℚ) = ((-(1000000 * 2 ^ 149) : ℤ) : ℚ) := by
    simp only [Int.cast_neg, Int.cast_mul, Int.cast_pow, Int.cast_ofNat]
    ring
  rw [F32.key_negMillion, F32.toRat, div_lt_iff₀ (by positivity), hc, Int.cast_lt]

theorem F32.gt_zero_million : F32.gt F32.zero F32.million = false := by decide

theorem F32.lt_zero_negMillion : F32.lt F32.zero F32.negMillion = false := by decide

theorem F32.lt_million_negMillion : F32.lt F32.million F32.negMillion = false := by decide

theorem F32.isFinite_of_not_nan_inf (x : F32) (h : (x.isnan || x.isinf) = false) :
    x.isFinite = true := by
  simp only [F32.isnan, F32.isinf, F32.isFinite, Bool.or_eq_false_iff, Bool.and_eq_false_iff,
    beq_eq_false_iff_ne, bne_eq_false_iff_eq, bne_iff_ne, ne_eq] at h ⊢
  rcases h with ⟨h1 | h1, h2 | h2⟩ <;> first | exact h1 | exact h2 | omega

/-- The validation step computes the policy of the specification. -/
theorem validateStep_eq_sanitizeSpec (x : F32) : validateStep x = sanitizeSpec x := by
  unfold validateStep sanitizeSpec
  by_cases hn : (x.isnan || x.isinf) = true
  · simp only [hn, if_true, F32.gt_zero_million, F32.lt_zero_negMillion, Bool.false_eq_true,
      if_false]
  · have hnan : x.isnan = false := by
      cases h : x.isnan <;> simp_all
    simp only [hn, if_false, Bool.false_eq_true]
    have hm : F32.million.isnan = false := by decide
    have hm2 : F32.negMillion.isnan = false := by decide
    by_cases h1 : F32.million.key < x.key
    · have : F32.gt x F32.million = true := by simp [F32.gt, hnan, hm, h1]
      rw [if_pos this, if_pos ((F32.toRat_gt_million_iff x).2 h1)]
      simp only [F32.lt_million_negMillion, Bool.false_eq_true, if_false]
    · have : F32.gt x F32.million = false := by simp [F32.gt, hnan, hm, h1]
      rw [this, if_neg (fun h => h1 ((F32.toRat_gt_million_iff x).1 h))]
      simp only [Bool.false_eq_true, if_false]
      by_cases h2 : x.key < F32.negMillion.key
      · have : F32.lt x F32.negMillion = true := by simp [F32.lt, hnan, hm2, h2]
        rw [if_pos this, if_pos ((F32.toRat_lt_negMillion_iff x).2 h2)]
      · have : F32.lt x F32.negMillion = false := by simp [F32.lt, hnan, hm2, h2]
        rw [this, if_neg (fun h => h2 ((F32.toRat_lt_negMillion_iff x).1 h))]
        simp

/-- An in-place loop over distinct indices rewrites exactly the visited elements. -/
theorem foldl_update_apply (f : F32 → F32) (l : List (Fin 8)) (hl : l.Nodup)
    (b : ChannelBuf) (i : Fin 8) :
    (l.foldl (fun b j => Function.update b j (f (b j))) b) i
      = if i ∈ l then f (b i) else b i := by
  induction l generalizing b with
  | nil => simp
  | cons j l ih =>
    rw [List.foldl_cons, ih (List.nodup_cons.1 hl).2]
    by_cases hij : i = j
    · subst hij
      simp [(List.nodup_cons.1 hl).1]
    · simp [hij, Function.update_noteq hij]

/-- Element `i` after the validation loop is the validation step of element `i` before. -/
theorem validateLoop_apply (buf : ChannelBuf) (i : Fin 8) :
    validateLoop buf i = validateStep (buf i) := by
  unfold validateLoop
  rw [foldl_update_apply validateStep _ (List.nodup_finRange 8)]
  simp

/-- The policy of the specification yields a finite value in the clamp range. -/
theorem sanitizeSpec_bounded (r : F32) :
    (sanitizeSpec r).isFinite = true ∧
      (-1000000 : ℚ) ≤ (sanitizeSpec r).toRat ∧ (sanitizeSpec r).toRat ≤ 1000000 := by
  have hz := F32.toRat_zero
  have hm := F32.toRat_million
  have hn := F32.toRat_negMillion
  unfold sanitizeSpec
  split_ifs with h1 h2 h3
  · rw [hz]; exact ⟨by decide, by norm_num, by norm_num⟩
  · rw [hm]; exact ⟨by decide, by norm_num, le_refl _⟩
  · rw [hn]; exact ⟨by decide, le_refl _, by norm_num⟩
  · exact ⟨F32.isFinite_of_not_nan_inf r (by simpa using h1), not_lt.1 h3, not_lt.1 h2⟩

/-! ## Lemmas on the frame -/

theorem foldl_append_singleton {α β : Type} (f : α → β) (l : List α) (init : List β) :
    l.foldl (fun acc i => acc ++ [f i]) init = init ++ l.map f := by
  induction l generalizing init with
  | nil => simp
  | cons a l ih => simp [ih]

/-- The members of one channel entry, in insertion order. -/
theorem channelEntry_eq (buf : ChannelBuf) (i : Fin 8) :
    channelEntry buf i = Json.obj
      [("id", Json.int (i.val : Int)), ("value", Json.float (buf i)),
       ("ads", Json.int (if i.val < 4 then 1 else 2)), ("pin", Json.int ((i.val : Int) % 4))] := by
  simp [channelEntry, Json.setMember]

/-- The document as an explicit tree. -/
theorem buildDoc_eq (ts : Nat) (buf : ChannelBuf) :
    buildDoc ts buf = Json.obj
      [("timestamp", Json.uint ts),
       ("channels", Json.arr ((List.finRange 8).map (channelEntry buf)))] := by
  simp [buildDoc, Json.setMember, foldl_append_singleton]

/-! ## Lemmas on the document pool -/

theorem poolAlloc_fit (slotBytes used : Nat) (h : used + slotBytes ≤ docCapacity) :
    poolAlloc slotBytes used = some (used + slotBytes) := by
  simp [poolAlloc, h]

theorem poolAlloc_full (slotBytes used : Nat) (h : docCapacity < used + slotBytes) :
    poolAlloc slotBytes used = none := by
  simp [poolAlloc, Nat.not_le.2 h]

/-- With room for its five slots an entry is built whole. -/
theorem channelEntryPool_fit (slotBytes : Nat) (buf : ChannelBuf) (used : Nat) (i : Fin 8)
    (h : used + 5 * slotBytes ≤ docCapacity) :
    channelEntryPool slotBytes buf used i = (used + 5 * slotBytes, some (channelEntry buf i)) := by
  have a1 := poolAlloc_fit slotBytes used (by omega)
  have a2 := poolAlloc_fit slotBytes (used + slotBytes) (by omega)
  have a3 := poolAlloc_fit slotBytes (used + slotBytes + slotBytes) (by omega)
  have a4 := poolAlloc_fit slotBytes (used + slotBytes + slotBytes + slotBytes) (by omega)
  have a5 := poolAlloc_fit slotBytes (used + slotBytes + slotBytes + slotBytes + slotBytes)
    (by omega)
  simp [channelEntryPool, setMemberPool, a1, a2, a3, a4, a5, channelEntry, Json.setMember]
  omega

/-- With no room for the element slot no entry is built. -/
theorem channelEntryPool_full (slotBytes : Nat) (buf : ChannelBuf) (used : Nat) (i : Fin 8)
    (h : docCapacity < used + slotBytes) :
    channelEntryPool slotBytes buf used i = (used, none) := by
  simp [channelEntryPool, poolAlloc_full slotBytes used h]

/-- With room for all of them the framing loop appends every entry. -/
theorem channelsPool_fit (slotBytes : Nat) (buf : ChannelBuf) (l : List (Fin 8))
    (start : Nat × List Json) (h : start.1 + 5 * slotBytes * l.length ≤ docCapacity) :
    channelsPool slotBytes buf l start
      = (start.1 + 5 * slotBytes * l.length, start.2 ++ l.map (channelEntry buf)) := by
  induction l generalizing start with
  | nil => simp [channelsPool]
  | cons i l ih =>
    have hlen : (i :: l).length = l.length + 1 := rfl
    rw [hlen, Nat.mul_add, Nat.mul_one] at h
    have he := channelEntryPool_fit slotBytes buf start.1 i (by omega)
    have hstep : channelsPool slotBytes buf (i :: l) start
        = channelsPool slotBytes buf l
            (start.1 + 5 * slotBytes, start.2 ++ [channelEntry buf i]) := by
      simp only [channelsPool, List.foldl_cons, he]
    rw [hstep, ih _ (by simpa using (by omega : start.1 + 5 * slotBytes
      + 5 * slotBytes * l.length ≤ docCapacity))]
    simp [Nat.mul_add, Nat.add_assoc, Nat.add_comm (5 * slotBytes)]

/-- Once the pool is full the framing loop appends nothing more. -/
theorem channelsPool_full (slotBytes : Nat) (buf : ChannelBuf) (l : List (Fin 8))
    (start : Nat × List Json) (h : docCapacity < start.1 + slotBytes) :
    channelsPool slotBytes buf l start = start := by
  induction l with
  | nil => simp [channelsPool]
  | cons i l ih =>
    have he := channelEntryPool_full slotBytes buf start.1 i h
    have hstep : channelsPool slotBytes buf (i :: l) start
        = channelsPool slotBytes buf l start := by
      simp only [channelsPool, List.foldl_cons, he]
    rw [hstep, ih]

theorem channelsPool_append (slotBytes : Nat) (buf : ChannelBuf) (l1 l2 : List (Fin 8))
    (start : Nat × List Json) :
    channelsPool slotBytes buf (l1 ++ l2) start
      = channelsPool slotBytes buf l2 (channelsPool slotBytes buf l1 start) := by
  simp [channelsPool, List.foldl_append]

/-- With slots of 16 bytes (42 slots are 672 bytes) the pool is full after six
entries: the document holds the channels 0 to 5 only. -/
theorem buildDocPool_sixteen (ts : Nat) (buf : ChannelBuf) :
    buildDocPool 16 ts buf = Json.obj
      [("timestamp", Json.uint ts),
       ("channels", Json.arr (([0, 1, 2, 3, 4, 5] : List (Fin 8)).map (channelEntry buf)))] := by
  have a1 := poolAlloc_fit 16 0 (by decide)
  have a2 := poolAlloc_fit 16 (0 + 16) (by decide)
  have hsplit : List.finRange 8 = [0, 1, 2, 3, 4, 5] ++ [6, 7] := by decide
  have h6 := channelsPool_fit 16 buf [0, 1, 2, 3, 4, 5] (0 + 16 + 16, []) (by decide)
  have h2 := channelsPool_full 16 buf [6, 7]
    (0 + 16 + 16 + 5 * 16 * ([0, 1, 2, 3, 4, 5] : List (Fin 8)).length,
      [] ++ ([0, 1, 2, 3, 4, 5] : List (Fin 8)).map (channelEntry buf))
    (by simp [docCapacity])
  simp only [buildDocPool, setMemberPool, List.any_nil, Bool.false_eq_true, if_false, a1, a2,
    hsplit, channelsPool_append, h6, h2]
  simp [Json.setMember]

/-! ## Lemmas on the broadcast step -/

theorem wsCount_eq_length_live (cs : List WsClient) : wsCount cs = (liveClients cs).length := by
  simp [wsCount, liveClients, List.countP_eq_length_filter]

theorem isLive_close (c : WsClient) : c.close.isLive = false := by
  unfold WsClient.close
  by_cases h : c.isLive = true
  · rw [if_pos h]
    simp [WsClient.isLive]
  · rw [if_neg h]
    simpa using h

theorem liveClients_map_close (cs : List WsClient) :
    liveClients (cs.map WsClient.close) = [] := by
  simp [liveClients, List.filter_eq_nil_iff, isLive_close]

/-- The overload branch of `sendDataToClients`. -/
theorem sendDataToClients_overload (L : Lib) (tBuild tDbg tSet : Nat) (s : Sys)
    (h : 3 < wsCount s.ws) :
    sendDataToClients L tBuild tDbg tSet s
      = closeAll { s with serial := s.serial ++ [SerialEvent.tooMany] } := by
  have h0 : wsCount s.ws > 0 := by omega
  simp [sendDataToClients, h0, h]

/-- The delivery branch of `sendDataToClients`: fields left as they were,
and the logs that grow. -/
theorem sendDataToClients_normal (L : Lib) (tBuild tDbg tSet : Nat) (s : Sys)
    (h1 : 1 ≤ wsCount s.ws) (h3 : wsCount s.ws ≤ 3) :
    (sendDataToClients L tBuild tDbg tSet s).built
        = s.built ++ [buildDoc (millis tBuild) s.channelData] ∧
    (sendDataToClients L tBuild tDbg tSet s).sent
        = s.sent ++ (liveClients s.ws).map
            (fun c => (c.id, L.serializeJson (buildDoc (millis tBuild) s.channelData))) ∧
    (sendDataToClients L tBuild tDbg tSet s).closed = s.closed ∧
    (sendDataToClients L tBuild tDbg tSet s).ws = s.ws ∧
    (sendDataToClients L tBuild tDbg tSet s).channelData = s.channelData ∧
    (sendDataToClients L tBuild tDbg tSet s).lastSampleTime = s.lastSampleTime ∧
    (sendDataToClients L tBuild tDbg tSet s).samples = s.samples := by
  have h0 : wsCount s.ws > 0 := by omega
  have h4 : ¬ wsCount s.ws > 3 := by omega
  simp only [sendDataToClients, h0, h4, if_true, if_false, textAll]
  split_ifs <;> simp

/-- The idle branch of `sendDataToClients`. -/
theorem sendDataToClients_idle (L : Lib) (tBuild tDbg tSet : Nat) (s : Sys)
    (h : wsCount s.ws = 0) : sendDataToClients L tBuild tDbg tSet s = s := by
  simp [sendDataToClients, h]

/-! ## Lemmas on the tick loop -/

theorem cleanupClients_frame (L : Lib) (s : Sys) :
    (cleanupClients L s).built = s.built ∧
    (cleanupClients L s).sent = s.sent ∧
    (cleanupClients L s).channelData = s.channelData ∧
    (cleanupClients L s).lastSampleTime = s.lastSampleTime ∧
    (cleanupClients L s).samples = s.samples := by
  unfold cleanupClients
  split_ifs
  · cases h : s.ws <;> simp
  · simp

theorem sendDataToClients_frame (L : Lib) (tBuild tDbg tSet : Nat) (s : Sys) :
    (sendDataToClients L tBuild tDbg tSet s).channelData = s.channelData ∧
    (sendDataToClients L tBuild tDbg tSet s).lastSampleTime = s.lastSampleTime ∧
    (sendDataToClients L tBuild tDbg tSet s).samples = s.samples := by
  simp only [sendDataToClients, closeAll, textAll]
  split_ifs <;> simp

/-- The wrapping subtraction is subtraction modulo `2^32`. -/
theorem ulSub_eq_emod (a b : Nat) (hb : b < 4294967296) :
    (ulSub a b : Int) = ((a : Int) - (b : Int)) % 4294967296 := by
  simp only [ulSub, UL]
  omega

theorem millis_lt (t : Nat) : millis t < 4294967296 := by
  simp only [millis, UL]
  omega

/-- The firing branch of `loop`. -/
theorem loop_fire (L : Lib) (inp : TickInput) (s : Sys)
    (h : sampleInterval ≤ ulSub (millis inp.now) s.lastSampleTime) :
    loop L inp s = cleanupClients L (sendDataToClients L inp.tBuild inp.tDbg inp.tSet
      (readAllChannels inp.conv { s with lastSampleTime := millis inp.now })) := by
  simp [loop, h]

/-- The waiting branch of `loop`. -/
theorem loop_wait (L : Lib) (inp : TickInput) (s : Sys)
    (h : ulSub (millis inp.now) s.lastSampleTime < sampleInterval) :
    loop L inp s = s := by
  simp [loop, Nat.not_le.2 h]

theorem loop_fire_fields (L : Lib) (inp : TickInput) (s : Sys)
    (h : sampleInterval ≤ ulSub (millis inp.now) s.lastSampleTime) :
    (loop L inp s).lastSampleTime = millis inp.now ∧
    (loop L inp s).samples = s.samples + 1 ∧
    (loop L inp s).channelData = readBuffer inp.conv := by
  rw [loop_fire L inp s h]
  obtain ⟨_, _, c1, c2, c3⟩ := cleanupClients_frame L (sendDataToClients L inp.tBuild inp.tDbg
    inp.tSet (readAllChannels inp.conv { s with lastSampleTime := millis inp.now }))
  obtain ⟨d1, d2, d3⟩ := sendDataToClients_frame L inp.tBuild inp.tDbg inp.tSet
    (readAllChannels inp.conv { s with lastSampleTime := millis inp.now })
  rw [c1, c2, c3, d1, d2, d3]
  simp [readAllChannels]

theorem frameTimestamp_buildDoc (ts : Nat) (buf : ChannelBuf) :
    frameTimestamp (buildDoc ts buf) = some ts := by
  simp [buildDoc_eq, frameTimestamp, Json.get?]

/-- One scheduling step builds no frame or exactly one, stamped with `millis` of
its `tBuild` reading. -/
theorem loop_built (L : Lib) (inp : TickInput) (s : Sys) :
    (loop L inp s).built = s.built ∨
    ∃ buf : ChannelBuf,
      (loop L inp s).built = s.built ++ [buildDoc (millis inp.tBuild) buf] := by
  by_cases h : sampleInterval ≤ ulSub (millis inp.now) s.lastSampleTime
  · rw [loop_fire L inp s h, (cleanupClients_frame L _).1]
    generalize hs1 : readAllChannels inp.conv
      { s with lastSampleTime := millis inp.now } = s1
    have hb : s1.built = s.built := by rw [← hs1]; rfl
    by_cases h0 : wsCount s1.ws = 0
    · left
      rw [sendDataToClients_idle L _ _ _ s1 h0, hb]
    · by_cases h3 : 3 < wsCount s1.ws
      · left
        rw [sendDataToClients_overload L _ _ _ s1 h3, ← hb]
        rfl
      · right
        have hn := sendDataToClients_normal L inp.tBuild inp.tDbg inp.tSet s1
          (by omega) (by omega)
        exact ⟨s1.channelData, by rw [hn.1, hb]⟩
  · left
    rw [loop_wait L inp s (Nat.not_le.1 h)]

theorem iteration_built (L : Lib) (inp : TickInput) (s : Sys) :
    (iteration L inp s).built = s.built ∨
    ∃ buf : ChannelBuf,
      (iteration L inp s).built = s.built ++ [buildDoc (millis inp.tBuild) buf] :=
  loop_built L inp { s with ws := inp.clients }

/-- The frames built by a run carry `millis` of a subsequence of the `tBuild` readings. -/
theorem run_built (L : Lib) (inps : List TickInput) (s : Sys) :
    ∃ new : List (Nat × ChannelBuf),
      (new.map Prod.fst).Sublist (inps.map TickInput.tBuild) ∧
      (run L inps s).built = s.built ++ new.map (fun p => buildDoc (millis p.1) p.2) := by
  induction inps generalizing s with
  | nil => exact ⟨[], by simp, by simp [run]⟩
  | cons inp rest ih =>
    obtain ⟨new, hsub, hb⟩ := ih (iteration L inp s)
    rcases iteration_built L inp s with h | ⟨buf, h⟩
    · refine ⟨new, ?_, ?_⟩
      · simpa using hsub.cons inp.tBuild
      · simp [run, hb, h]
    · refine ⟨(inp.tBuild, buf) :: new, ?_, ?_⟩
      · simpa using hsub.cons₂ inp.tBuild
      · simp [run, hb, h]

theorem tBuild_sublist_clockReadings (inps : List TickInput) :
    (inps.map TickInput.tBuild).Sublist (clockReadings inps) := by
  induction inps with
  | nil => simp [clockReadings]
  | cons inp rest ih =>
    simp only [clockReadings, List.map_cons, List.flatMap_cons, TickInput.readings,
      List.cons_append, List.nil_append]
    exact ((((ih.cons inp.tSet).cons inp.tDbg).cons₂ inp.tBuild).cons inp.now)

theorem millis_le_of_same_epoch (a b : Nat) (hab : a ≤ b) (h : a / UL = b / UL) :
    millis a ≤ millis b := by
  simp only [millis, UL] at *
  omega

/-! ## Lemmas on the I2C scanner -/

theorem printHex_ne_bothDetected :
    ∀ a < 127, SerialCall.println (printHex a) ≠ bothDetectedLine := by
  decide

theorem mem_probedAddresses_lt (a : Nat) (h : a ∈ probedAddresses) : a < 127 := by
  simp only [probedAddresses, List.mem_range'_1] at h
  omega

/-- One address adds one to the count exactly when it acknowledges, and never
prints the line that announces both modules. -/
theorem scanAddress_step (bus : I2CBus) (st : ScanState) (a : Nat) (ha : a < 127) :
    (scanAddress bus st a).nDevices = st.nDevices + (if bus a = 0 then 1 else 0) ∧
    (bothDetectedLine ∈ (scanAddress bus st a).out ↔ bothDetectedLine ∈ st.out) := by
  have hx := printHex_ne_bothDetected a ha
  have hx2 : bothDetectedLine ≠ SerialCall.println (printHex a) := fun h => hx h.symm
  unfold scanAddress
  by_cases h0 : bus a = 0
  · simp only [h0, if_true]
    refine ⟨trivial, ?_⟩
    split_ifs <;> simp [bothDetectedLine]
  · by_cases h4 : bus a = 4
    · simp only [h4, if_true]
      refine ⟨by simp, ?_⟩
      split_ifs <;> simp_all [bothDetectedLine]
    · simp [h0, h4]

/-- The `for` loop counts the acknowledging addresses among those it visits. -/
theorem foldl_scanAddress (bus : I2CBus) (l : List Nat) (hl : ∀ a ∈ l, a < 127)
    (st : ScanState) :
    (l.foldl (scanAddress bus) st).nDevices
        = st.nDevices + l.countP (fun a => decide (bus a = 0)) ∧
    (bothDetectedLine ∈ (l.foldl (scanAddress bus) st).out ↔ bothDetectedLine ∈ st.out) := by
  induction l generalizing st with
  | nil => simp
  | cons a l ih =>
    have hs := scanAddress_step bus st a (hl a (List.mem_cons_self a l))
    have hr := ih (fun b hb => hl b (List.mem_cons_of_mem a hb)) (scanAddress bus st a)
    rw [List.foldl_cons, hr.1, hr.2, hs.1, hs.2]
    refine ⟨?_, Iff.rfl⟩
    by_cases h0 : bus a = 0
    · simp [h0, List.countP_cons]; omega
    · simp [h0, List.countP_cons]

theorem mem_scanVerdict_iff (n : Nat) : bothDetectedLine ∈ scanVerdict n ↔ n = 2 := by
  unfold scanVerdict
  by_cases h0 : n = 0
  · subst h0
    simp [bothDetectedLine]
  · by_cases h2 : n = 2
    · subst h2
      simp
    · by_cases h1 : n = 1
      · subst h1
        simp [bothDetectedLine]
      · simp [h0, h1, h2, bothDetectedLine]

/-- The scanner's `loop` as a count and a report. -/
theorem I2CScanner.loop_eq (bus : I2CBus) :
    (I2CScanner.loop bus).nDevices = ackCount bus ∧
    (∃ pre : List SerialCall, bothDetectedLine ∉ pre ∧
      (I2CScanner.loop bus).out
        = pre ++ scanVerdict (ackCount bus) ++ [SerialCall.println ""]) := by
  have h := foldl_scanAddress bus probedAddresses mem_probedAddresses_lt
    { nDevices := 0, out := [SerialCall.println "Scanning..."] }
  have hn : (probedAddresses.foldl (scanAddress bus)
      { nDevices := 0, out := [SerialCall.println "Scanning..."] }).nDevices
      = ackCount bus := by
    rw [h.1]; simp [ackCount]
  refine ⟨?_, ?_⟩
  · simp only [I2CScanner.loop]
    exact hn
  · refine ⟨(probedAddresses.foldl (scanAddress bus)
      { nDevices := 0, out := [SerialCall.println "Scanning..."] }).out, ?_, ?_⟩
    · exact fun hm => absurd (h.2.1 hm) (by simp [bothDetectedLine])
    · simp only [I2CScanner.loop, hn]

theorem reportsBoth_iff (bus : I2CBus) :
    reportsBoth (I2CScanner.loop bus) = true ↔ ackCount bus = 2 := by
  obtain ⟨_, pre, hpre, hout⟩ := I2CScanner.loop_eq bus
  simp only [reportsBoth, decide_eq_true_eq, hout, List.mem_append, List.mem_singleton,
    mem_scanVerdict_iff]
  constructor
  · rintro ((h | h) | h)
    · exact absurd h hpre
    · exact h
    · exact absurd h (by simp [bothDetectedLine])
  · intro h
    exact Or.inl (Or.inr h)

/-! ## Claims -/

/-- C1. Sanitization totality: whatever the eight converted readings are (NaN,
either infinity, or any finite value), every value left in the channel buffer
by `readAllChannels` is finite and lies in `[-1000000, 1000000]`. -/
theorem readAllChannels_finite_clamped (conv : ChannelBuf) (s : Sys) (i : Fin 8) :
    ((readAllChannels conv s).channelData i).isFinite = true ∧
      (-1000000 : ℚ) ≤ ((readAllChannels conv s).channelData i).toRat ∧
      ((readAllChannels conv s).channelData i).toRat ≤ 1000000 := by
  have h : (readAllChannels conv s).channelData i = sanitizeSpec (conv i) := by
    simp only [readAllChannels, readBuffer, validateLoop_apply, validateStep_eq_sanitizeSpec]
  rw [h]
  exact sanitizeSpec_bounded (conv i)

/-- C2. Sanitization policy, per channel: the value left in channel `i` is the
policy of the specification applied to the converted reading of channel `i`
alone (`0` for NaN or an infinity, `±1000000` beyond the clamp, the reading
itself otherwise), so it does not depend on the other channels; the three
constants denote `0`, `1000000` and `-1000000`; on readings `[NaN, 5.2, -0.0000003, 1e9, ...]` channel 0 becomes
`0`, channels 1 and 2 are kept and channel 3 becomes `1000000`. -/
theorem readAllChannels_policy :
    (∀ (conv : ChannelBuf) (s : Sys) (i : Fin 8),
      (readAllChannels conv s).channelData i = sanitizeSpec (conv i)) ∧
    (∀ (conv conv2 : ChannelBuf) (s s2 : Sys) (i : Fin 8), conv i = conv2 i →
      (readAllChannels conv s).channelData i = (readAllChannels conv2 s2).channelData i) ∧
    (F32.zero.toRat = 0 ∧ F32.million.toRat = 1000000 ∧ F32.negMillion.toRat = -1000000) ∧
    (∀ (c4 c5 c6 c7 : F32) (s : Sys),
      let out := (readAllChannels
        ![F32.qnan, F32.f5_2, F32.fNeg3em7, F32.f1e9, c4, c5, c6, c7] s).channelData
      out 0 = F32.zero ∧ out 1 = F32.f5_2 ∧ out 2 = F32.fNeg3em7 ∧ out 3 = F32.million) := by
  refine ⟨?_, ?_, ⟨?_, ?_, ?_⟩, ?_⟩
  · intro conv s i
    simp only [readAllChannels, readBuffer, validateLoop_apply, validateStep_eq_sanitizeSpec]
  · intro conv conv2 s s2 i h
    simp only [readAllChannels, readBuffer, validateLoop_apply, h]
  · exact F32.toRat_zero
  · exact F32.toRat_million
  · exact F32.toRat_negMillion
  · intro c4 c5 c6 c7 s
    simp only [readAllChannels, readBuffer, validateLoop_apply]
    refine ⟨?_, ?_, ?_, ?_⟩
    · show validateStep F32.qnan = _; decide
    · show validateStep F32.f5_2 = _; decide
    · show validateStep F32.fNeg3em7 = _; decide
    · show validateStep F32.f1e9 = _; decide

/-- C4. Overload shedding: when more than 3 observers are live, one call of
`sendDataToClients` sends nothing and builds no message, closes every live
observer (the closes are exactly the live observers), and leaves no observer
live. -/
theorem sendDataToClients_sheds (L : Lib) (tBuild tDbg tSet : Nat) (s : Sys)
    (h : 3 < wsCount s.ws) :
    (sendDataToClients L tBuild tDbg tSet s).sent = s.sent ∧
    (sendDataToClients L tBuild tDbg tSet s).built = s.built ∧
    (sendDataToClients L tBuild tDbg tSet s).closed
        = s.closed ++ (liveClients s.ws).map WsClient.id ∧
    (sendDataToClients L tBuild tDbg tSet s).ws = s.ws.map WsClient.close ∧
    liveClients (sendDataToClients L tBuild tDbg tSet s).ws = [] ∧
    wsCount (sendDataToClients L tBuild tDbg tSet s).ws = 0 := by
  rw [sendDataToClients_overload L tBuild tDbg tSet s h]
  refine ⟨rfl, rfl, rfl, rfl, ?_, ?_⟩
  · exact liveClients_map_close s.ws
  · rw [wsCount_eq_length_live]
    simp [closeAll, liveClients_map_close]

/-- Witness for C4: a 4th observer has connected while 3 were live; the next
broadcast sends zero messages and sheds all 4. -/
theorem sendDataToClients_sheds_witness :
    wsCount (sysWith (connectedClients 4)).ws = 4 ∧
    (sendDataToClients exampleLib 60 60 60 (sysWith (connectedClients 4))).sent = [] ∧
    (sendDataToClients exampleLib 60 60 60 (sysWith (connectedClients 4))).closed
        = [1, 2, 3, 4] ∧
    liveClients (sendDataToClients exampleLib 60 60 60 (sysWith (connectedClients 4))).ws
        = [] := by
  have h := sendDataToClients_sheds exampleLib 60 60 60 (sysWith (connectedClients 4))
    (by decide)
  exact ⟨by decide, h.1, h.2.2.1.trans (by decide), h.2.2.2.2.1⟩

/-- C5, as stated, fails at the boundary: with exactly `WS_MAX_CLIENTS = 4` live
observers the broadcast step delivers no message and closes all four. -/
theorem max_observers_are_shed :
    wsCount (sysWith (connectedClients WS_MAX_CLIENTS)).ws = WS_MAX_CLIENTS ∧
    (sendDataToClients exampleLib 60 60 60 (sysWith (connectedClients WS_MAX_CLIENTS))).sent
        = [] ∧
    (sendDataToClients exampleLib 60 60 60 (sysWith (connectedClients WS_MAX_CLIENTS))).closed
        = [1, 2, 3, 4] := by
  have h : 3 < wsCount (sysWith (connectedClients WS_MAX_CLIENTS)).ws := by decide
  rw [sendDataToClients_overload exampleLib 60 60 60 _ h]
  exact ⟨by decide, by decide, by decide⟩

/-- C5, amended. With `WS_MAX_CLIENTS + 1` live observers, and already with
`WS_MAX_CLIENTS` of them (any number above the hard-coded 3), a broadcast
delivers nothing and closes every live observer; with 1 to 3 live observers
every live observer receives exactly one message and none is closed. -/
theorem sendDataToClients_boundary (L : Lib) (tBuild tDbg tSet : Nat) (s : Sys) :
    (wsCount s.ws = WS_MAX_CLIENTS + 1 ∨ wsCount s.ws = WS_MAX_CLIENTS →
      (sendDataToClients L tBuild tDbg tSet s).sent = s.sent ∧
      (sendDataToClients L tBuild tDbg tSet s).closed
          = s.closed ++ (liveClients s.ws).map WsClient.id ∧
      liveClients (sendDataToClients L tBuild tDbg tSet s).ws = []) ∧
    (1 ≤ wsCount s.ws ∧ wsCount s.ws ≤ 3 →
      (∃ payload : String,
        (sendDataToClients L tBuild tDbg tSet s).sent
          = s.sent ++ (liveClients s.ws).map (fun c => (c.id, payload))) ∧
      (sendDataToClients L tBuild tDbg tSet s).closed = s.closed) := by
  constructor
  · intro h
    have h3 : 3 < wsCount s.ws := by
      rcases h with h | h <;> rw [h] <;> decide
    rw [sendDataToClients_overload L tBuild tDbg tSet s h3]
    exact ⟨rfl, rfl, liveClients_map_close s.ws⟩
  · rintro ⟨h1, h3⟩
    have h := sendDataToClients_normal L tBuild tDbg tSet s h1 h3
    exact ⟨⟨_, h.2.1⟩, h.2.2.1⟩

/-- Witness for the amended C5: five live observers are all shed without a
send; three live observers each receive the one payload. -/
theorem sendDataToClients_boundary_witness :
    ((sendDataToClients exampleLib 60 60 60 (sysWith (connectedClients 5))).sent = [] ∧
      (sendDataToClients exampleLib 60 60 60 (sysWith (connectedClients 5))).closed
        = [1, 2, 3, 4, 5]) ∧
    (∃ payload : String,
      (sendDataToClients exampleLib 60 60 60 (sysWith (connectedClients 3))).sent
        = [(1, payload), (2, payload), (3, payload)]) := by
  have h5 := (sendDataToClients_boundary exampleLib 60 60 60 (sysWith (connectedClients 5))).1
    (Or.inl (by decide))
  obtain ⟨⟨payload, h3⟩, _⟩ :=
    (sendDataToClients_boundary exampleLib 60 60 60 (sysWith (connectedClients 3))).2
      ⟨by decide, by decide⟩
  exact ⟨⟨h5.1, h5.2.1.trans (by decide)⟩, payload, h3.trans rfl⟩

/-- C6. Normal delivery: with 1, 2 or 3 live observers, one call of
`sendDataToClients` builds exactly one message, hands the one serialized
payload to every live observer exactly once (one send per live observer, in
list order), closes nobody and leaves the client list unchanged; the
timestamp inside the payload is therefore the same for all of them. -/
theorem sendDataToClients_delivers (L : Lib) (tBuild tDbg tSet : Nat) (s : Sys)
    (h1 : 1 ≤ wsCount s.ws) (h3 : wsCount s.ws ≤ 3) :
    ∃ (doc : Json) (payload : String),
      doc = buildDoc (millis tBuild) s.channelData ∧
      payload = L.serializeJson doc ∧
      frameTimestamp doc = some (millis tBuild) ∧
      (sendDataToClients L tBuild tDbg tSet s).built = s.built ++ [doc] ∧
      (sendDataToClients L tBuild tDbg tSet s).sent
        = s.sent ++ (liveClients s.ws).map (fun c => (c.id, payload)) ∧
      (sendDataToClients L tBuild tDbg tSet s).closed = s.closed ∧
      (sendDataToClients L tBuild tDbg tSet s).ws = s.ws := by
  have h := sendDataToClients_normal L tBuild tDbg tSet s h1 h3
  refine ⟨_, _, rfl, rfl, ?_, h.1, h.2.1, h.2.2.1, h.2.2.2.1⟩
  simp [buildDoc_eq, frameTimestamp, Json.get?]

/-- Witness for C6: with 3 observers connected, all 3 receive the same payload,
nobody is closed and one message is built. -/
theorem sendDataToClients_delivers_witness :
    ∃ (doc : Json) (payload : String),
      frameTimestamp doc = some 60 ∧
      (sendDataToClients exampleLib 60 61 62 (sysWith (connectedClients 3))).built = [doc] ∧
      (sendDataToClients exampleLib 60 61 62 (sysWith (connectedClients 3))).sent
        = [(1, payload), (2, payload), (3, payload)] ∧
      (sendDataToClients exampleLib 60 61 62 (sysWith (connectedClients 3))).closed = [] := by
  obtain ⟨doc, payload, _, _, hts, hb, hs, hc, _⟩ :=
    sendDataToClients_delivers exampleLib 60 61 62 (sysWith (connectedClients 3))
      (by decide) (by decide)
  exact ⟨doc, payload, hts.trans (by decide), hb.trans (by simp [sysWith, initSys]),
    hs.trans rfl, hc.trans (by decide)⟩

/-- C7. Idle no-op: with zero live observers, one call of `sendDataToClients`
returns the state it was given: no send (a send counter at 0 stays at 0), no
close, no message built, and the client list, the channel buffer and the
diagnostic timer are unchanged. -/
theorem sendDataToClients_idle_noop (L : Lib) (tBuild tDbg tSet : Nat) (s : Sys)
    (h : wsCount s.ws = 0) :
    sendDataToClients L tBuild tDbg tSet s = s ∧
    (sendDataToClients L tBuild tDbg tSet s).sent = s.sent ∧
    (s.sent.length = 0 → (sendDataToClients L tBuild tDbg tSet s).sent.length = 0) ∧
    (sendDataToClients L tBuild tDbg tSet s).closed = s.closed ∧
    (sendDataToClients L tBuild tDbg tSet s).built = s.built ∧
    (sendDataToClients L tBuild tDbg tSet s).ws = s.ws ∧
    (sendDataToClients L tBuild tDbg tSet s).channelData = s.channelData ∧
    (sendDataToClients L tBuild tDbg tSet s).lastDebugPrint = s.lastDebugPrint := by
  rw [sendDataToClients_idle L tBuild tDbg tSet s h]
  exact ⟨rfl, rfl, id, rfl, rfl, rfl, rfl, rfl⟩

/-- Witness for C7: after `setup` with no client, and with one client that has
already disconnected, a broadcast sends nothing. -/
theorem sendDataToClients_idle_noop_witness :
    (sendDataToClients exampleLib 60 61 62 (sysWith [])).sent.length = 0 ∧
    (sendDataToClients exampleLib 60 61 62 (sysWith [⟨7, WsStatus.disconnected⟩])).sent.length
      = 0 := by
  have h0 := sendDataToClients_idle_noop exampleLib 60 61 62 (sysWith []) (by decide)
  have h1 := sendDataToClients_idle_noop exampleLib 60 61 62
    (sysWith [⟨7, WsStatus.disconnected⟩]) (by decide)
  exact ⟨h0.2.2.1 (by decide), h1.2.2.1 (by decide)⟩

/-- C8. Determinism of encoding: two calls of `sendDataToClients` that read the
same timestamp and hold the same channel buffer build the same document and
send the same payload, whatever their observer sets (of 1 to 3 live
observers), diagnostic timers and later clock readings are; the document is
the fixed tree `timestamp`, then `channels`, each entry `id`, `value`, `ads`,
`pin`, entries in ascending channel index. -/
theorem sendDataToClients_encoding_deterministic (L : Lib)
    (tBuild tDbg tSet tBuild2 tDbg2 tSet2 : Nat) (s s2 : Sys)
    (h1 : 1 ≤ wsCount s.ws) (h3 : wsCount s.ws ≤ 3)
    (k1 : 1 ≤ wsCount s2.ws) (k3 : wsCount s2.ws ≤ 3)
    (hts : millis tBuild = millis tBuild2) (hbuf : s.channelData = s2.channelData) :
    ∃ doc : Json,
      doc = Json.obj
        [("timestamp", Json.uint (millis tBuild)),
         ("channels", Json.arr ((List.finRange 8).map (fun i => Json.obj
            [("id", Json.int (i.val : Int)), ("value", Json.float (s.channelData i)),
             ("ads", Json.int (if i.val < 4 then 1 else 2)),
             ("pin", Json.int ((i.val : Int) % 4))])))] ∧
      (sendDataToClients L tBuild tDbg tSet s).built = s.built ++ [doc] ∧
      (sendDataToClients L tBuild2 tDbg2 tSet2 s2).built = s2.built ++ [doc] ∧
      (sendDataToClients L tBuild tDbg tSet s).sent
        = s.sent ++ (liveClients s.ws).map (fun c => (c.id, L.serializeJson doc)) ∧
      (sendDataToClients L tBuild2 tDbg2 tSet2 s2).sent
        = s2.sent ++ (liveClients s2.ws).map (fun c => (c.id, L.serializeJson doc)) := by
  have a := sendDataToClients_normal L tBuild tDbg tSet s h1 h3
  have b := sendDataToClients_normal L tBuild2 tDbg2 tSet2 s2 k1 k3
  rw [← hts, ← hbuf] at b
  refine ⟨buildDoc (millis tBuild) s.channelData, ?_, a.1, b.1, a.2.1, b.2.1⟩
  rw [buildDoc_eq, show channelEntry s.channelData = _ from funext (channelEntry_eq s.channelData)]

/-- Witness for C8: one observer and an expired diagnostic timer against three
observers and a fresh one, same buffer and timestamp: same document. -/
theorem sendDataToClients_encoding_deterministic_witness :
    ∃ doc : Json,
      (sendDataToClients exampleLib 6000 6000 6000 (sysWith (connectedClients 1))).built
        = [doc] ∧
      (sendDataToClients exampleLib 6000 6001 6002
        { sysWith (connectedClients 3) with lastDebugPrint := 5900 }).built = [doc] := by
  obtain ⟨doc, _, hb1, hb2, _, _⟩ :=
    sendDataToClients_encoding_deterministic exampleLib 6000 6000 6000 6000 6001 6002
      (sysWith (connectedClients 1)) { sysWith (connectedClients 3) with lastDebugPrint := 5900 }
      (by decide) (by decide) (by decide) (by decide) rfl rfl
  exact ⟨doc, hb1.trans rfl, hb2.trans rfl⟩

/-- C9. Tick firing rule: with last-fire time `L0` and clock reading `T` (32-bit
counters), one iteration of `loop` runs the sample-then-broadcast cycle if
and only if `(T - L0) mod 2^32 ≥ 50`. When it fires, the cycle runs exactly
once (read, broadcast, clean up), the last-fire time becomes `T`, and a next
iteration whose reading is at least 50 ms after `T` fires again. When it does
not fire, the state is unchanged: last-fire time, buffer, sends and closes. -/
theorem loop_fires_iff (L : Lib) (inp : TickInput) (s : Sys)
    (hL : s.lastSampleTime < 4294967296) :
    (50 ≤ ((millis inp.now : Int) - (s.lastSampleTime : Int)) % 4294967296 →
      loop L inp s = cleanupClients L (sendDataToClients L inp.tBuild inp.tDbg inp.tSet
        (readAllChannels inp.conv { s with lastSampleTime := millis inp.now })) ∧
      (loop L inp s).lastSampleTime = millis inp.now ∧
      (loop L inp s).samples = s.samples + 1 ∧
      (∀ inp2 : TickInput,
        50 ≤ ((millis inp2.now : Int) - (millis inp.now : Int)) % 4294967296 →
        (loop L inp2 (loop L inp s)).samples = s.samples + 2 ∧
        (loop L inp2 (loop L inp s)).lastSampleTime = millis inp2.now)) ∧
    (((millis inp.now : Int) - (s.lastSampleTime : Int)) % 4294967296 < 50 →
      loop L inp s = s ∧
      (loop L inp s).lastSampleTime = s.lastSampleTime ∧
      (loop L inp s).channelData = s.channelData ∧
      (loop L inp s).sent = s.sent ∧
      (loop L inp s).closed = s.closed ∧
      (loop L inp s).samples = s.samples) ∧
    ((loop L inp s).samples = s.samples + 1 ↔
      50 ≤ ((millis inp.now : Int) - (s.lastSampleTime : Int)) % 4294967296) := by
  have he := ulSub_eq_emod (millis inp.now) s.lastSampleTime hL
  rw [← he]
  have hfire : (50 : Int) ≤ (ulSub (millis inp.now) s.lastSampleTime : Int) →
      sampleInterval ≤ ulSub (millis inp.now) s.lastSampleTime := by
    intro h; simp only [sampleInterval]; exact_mod_cast h
  have hwait : (ulSub (millis inp.now) s.lastSampleTime : Int) < 50 →
      ulSub (millis inp.now) s.lastSampleTime < sampleInterval := by
    intro h; simp only [sampleInterval]; exact_mod_cast h
  refine ⟨?_, ?_, ?_⟩
  · intro h
    have hf := loop_fire_fields L inp s (hfire h)
    refine ⟨loop_fire L inp s (hfire h), hf.1, hf.2.1, ?_⟩
    intro inp2 h2
    have h2n : sampleInterval ≤ ulSub (millis inp2.now) (loop L inp s).lastSampleTime := by
      rw [hf.1]
      have := ulSub_eq_emod (millis inp2.now) (millis inp.now) (millis_lt inp.now)
      rw [← this] at h2
      simp only [sampleInterval]; exact_mod_cast h2
    have hf2 := loop_fire_fields L inp2 (loop L inp s) h2n
    exact ⟨by rw [hf2.2.1, hf.2.1], hf2.1⟩
  · intro h
    rw [loop_wait L inp s (hwait h)]
    exact ⟨rfl, rfl, rfl, rfl, rfl, rfl⟩
  · constructor
    · intro hs
      by_contra hc
      rw [loop_wait L inp s (hwait (not_le.1 hc))] at hs
      omega
    · intro h
      exact (loop_fire_fields L inp s (hfire h)).2.1

/-- Witness for C9: from the state after `setup`, an iteration at 49 ms does
nothing, an iteration at 50 ms fires, and so does one whose counter has
wrapped (reading 44 with last fire at `2^32 - 6`: 50 ms elapsed). -/
theorem loop_fires_iff_witness :
    loop exampleLib (tickAt 49) initSys = initSys ∧
    (loop exampleLib (tickAt 50) initSys).samples = 1 ∧
    (loop exampleLib (tickAt 4294967340)
      { initSys with lastSampleTime := 4294967290 }).lastSampleTime = 44 := by
  have h49 := (loop_fires_iff exampleLib (tickAt 49) initSys (by decide)).2.1 (by decide)
  have h50 := (loop_fires_iff exampleLib (tickAt 50) initSys (by decide)).1 (by decide)
  have hw := (loop_fires_iff exampleLib (tickAt 4294967340)
    { initSys with lastSampleTime := 4294967290 } (by decide)).1 (by decide)
  exact ⟨h49.1, h50.2.2.1, hw.2.1.trans (by decide)⟩

/-- C10, as stated, fails when the 32-bit counter wraps: in a run of two
iterations 50 ms apart with a monotone clock, both broadcasting a frame, the
later frame carries timestamp 44 and the earlier one 4294967290. -/
theorem timestamp_decreases_on_wrap :
    (clockReadings wrapRun).Pairwise (fun a b => a ≤ b) ∧
    frameTimestamps (run exampleLib wrapRun initSys) = [4294967290, 44] ∧
    ¬ (frameTimestamps (run exampleLib wrapRun initSys)).Pairwise (fun a b => a ≤ b) := by
  have h : frameTimestamps (run exampleLib wrapRun initSys) = [4294967290, 44] := by decide
  refine ⟨by decide, h, ?_⟩
  rw [h]
  decide

/-- C10, amended. The `timestamp` of a frame is the millisecond counter since
start reduced modulo `2^32`, read when the frame is built; in every run of
the tick loop whose clock readings are non-decreasing and lie in one period
of the 32-bit counter (no wrap during the run), every frame broadcast later
carries a timestamp greater than or equal to that of a frame broadcast
earlier. -/
theorem timestamps_monotone_without_wrap (L : Lib) (inps : List TickInput) (s : Sys)
    (epoch : Nat)
    (hmono : (clockReadings inps).Pairwise (fun a b => a ≤ b))
    (hepoch : ∀ t ∈ clockReadings inps, t / UL = epoch) :
    ∃ new : List Json,
      (run L inps s).built = s.built ++ new ∧
      (∀ doc ∈ new, ∃ inp ∈ inps, frameTimestamp doc = some (millis inp.tBuild)) ∧
      (new.filterMap frameTimestamp).length = new.length ∧
      (new.filterMap frameTimestamp).Pairwise (fun a b => a ≤ b) := by
  obtain ⟨new, hsub, hb⟩ := run_built L inps s
  have hts : (new.map (fun p => buildDoc (millis p.1) p.2)).filterMap frameTimestamp
      = (new.map Prod.fst).map millis := by
    rw [List.filterMap_map, List.map_map]
    have : (frameTimestamp ∘ fun p : Nat × ChannelBuf => buildDoc (millis p.1) p.2)
        = fun p => some ((millis ∘ Prod.fst) p) := by
      funext p
      simp [frameTimestamp_buildDoc]
    rw [this]
    show List.filterMap (some ∘ (millis ∘ Prod.fst)) new = _
    rw [List.filterMap_eq_map]
  have hsub2 := hsub.trans (tBuild_sublist_clockReadings inps)
  refine ⟨_, hb, ?_, ?_, ?_⟩
  · intro doc hdoc
    obtain ⟨p, hp, rfl⟩ := List.mem_map.1 hdoc
    have hmem : p.1 ∈ inps.map TickInput.tBuild :=
      hsub.subset (List.mem_map.2 ⟨p, hp, rfl⟩)
    obtain ⟨inp, hinp, hpe⟩ := List.mem_map.1 hmem
    exact ⟨inp, hinp, by rw [frameTimestamp_buildDoc, hpe]⟩
  · rw [hts]; simp
  · rw [hts, List.pairwise_map]
    have hp : (new.map Prod.fst).Pairwise (fun a b => a ≤ b) := hmono.sublist hsub2
    refine List.Pairwise.imp_of_mem ?_ hp
    intro a b ha hb2 hab
    exact millis_le_of_same_epoch a b hab
      ((hepoch a (hsub2.subset ha)).trans (hepoch b (hsub2.subset hb2)).symm)

/-- Witness for the amended C10: three iterations at 50, 100 and 150 ms, each
broadcasting to one observer, give the timestamps 50, 100, 150. -/
theorem timestamps_monotone_without_wrap_witness :
    ∃ new : List Json,
      (run exampleLib [tickAt 50, tickAt 100, tickAt 150] initSys).built = new ∧
      (new.filterMap frameTimestamp).length = new.length ∧
      (new.filterMap frameTimestamp).Pairwise (fun a b => a ≤ b) := by
  obtain ⟨new, hb, _, hl, hp⟩ :=
    timestamps_monotone_without_wrap exampleLib [tickAt 50, tickAt 100, tickAt 150] initSys 0
      (by decide) (by decide)
  exact ⟨new, hb.trans (by simp [initSys]), hl, hp⟩

/-- C11. I2C scanner verdict. On every bus the count kept and reported by one
scan is the number of probed addresses `1..126` that acknowledge. The line
"Both ADS1115 modules detected" is printed exactly when that count is 2,
whatever the addresses are: on a bus where only `0x3C` and `0x68` acknowledge
the scan prints it although neither `0x48` nor `0x49` acknowledged, and on a
bus with devices at `0x48` and `0x4B` (the addresses `main.cpp` initialises)
it prints it although `0x49` did not acknowledge. -/
theorem scanner_announces_both_on_any_two_devices :
    (∀ bus : I2CBus,
      (I2CScanner.loop bus).nDevices = ackCount bus ∧
      ∃ pre : List SerialCall, bothDetectedLine ∉ pre ∧
        (I2CScanner.loop bus).out
          = pre ++ scanVerdict (ackCount bus) ++ [SerialCall.println ""]) ∧
    (∀ bus : I2CBus, reportsBoth (I2CScanner.loop bus) = true ↔ ackCount bus = 2) ∧
    (reportsBoth (I2CScanner.loop (busWith [0x3C, 0x68])) = true ∧
      (I2CScanner.loop (busWith [0x3C, 0x68])).nDevices = 2 ∧
      busWith [0x3C, 0x68] 0x48 ≠ 0 ∧ busWith [0x3C, 0x68] 0x49 ≠ 0) ∧
    (reportsBoth (I2CScanner.loop (busWith [0x48, 0x4B])) = true ∧
      busWith [0x48, 0x4B] 0x49 ≠ 0) := by
  have c1 : ackCount (busWith [0x3C, 0x68]) = 2 := by decide
  have c2 : ackCount (busWith [0x48, 0x4B]) = 2 := by decide
  refine ⟨I2CScanner.loop_eq, reportsBoth_iff, ⟨?_, ?_, by decide, by decide⟩, ?_, by decide⟩
  · exact (reportsBoth_iff _).2 c1
  · rw [(I2CScanner.loop_eq _).1, c1]
  · exact (reportsBoth_iff _).2 c2

end BrainID
